import Mathlib

/-
Verification of the GT.M POSIX extension (posix.c and posix.m).

The C shim functions are embedded as pure Lean functions.  Native libc
calls are modelled by oracle parameters: the value the native call would
produce and the errno value it leaves behind.  Each embedded operation
records the list of native calls it performs, the final ambient errno
value, and every output field it writes (an output that the C code never
writes is `none`).  The M-side helpers of posix.m (mode, octal, zbit,
isflag and the file-type predicates) are embedded over digit lists and
byte lists.
-/

namespace GtmPosix

/- errno values from errno.h on the target platform (Linux) -/
def ENOENT : Nat := 2
def EINVAL : Nat := 22
def EMFILE : Nat := 24
def ERANGE : Nat := 34
def ENODATA : Nat := 61

/- the NUL character -/
def nulc : Char := Char.ofNat 0

/-
strncopy (posix.c): copy the NUL-terminated string s into a buffer of
capacity n.  The C loop runs while n is greater than 1, copying one byte
per step; if the copied byte is NUL it returns 0, otherwise on loop exit
it writes a NUL and returns ERANGE.  Here s is the list of characters
before the terminator, and the second component is the exact sequence of
bytes written into the destination buffer (terminator included).
-/
def strncopy (s : List Char) (n : Int) : Nat × List Char :=
  if n ≤ 1 then (ERANGE, [nulc])
  else
    match s with
    | [] => (0, [nulc])
    | c :: s' =>
      let r := strncopy s' (n - 1)
      (r.1, c :: r.2)

/-
strpncopy (posix.c): like strncopy but returns the write position on
success (modelled as `some` of the remaining capacity) and NULL
(modelled as `none`) on overflow; the capacity is decremented once per
copied byte, and not for the terminator, which the next piece
overwrites.
-/
def strpncopy (s : List Char) (n : Int) : Option Int × List Char :=
  if n ≤ 1 then (none, [nulc])
  else
    match s with
    | [] => (some n, [nulc])
    | c :: s' =>
      let r := strpncopy s' (n - 1)
      (r.1, c :: r.2)

/-
mode (posix.m): octal textual representation to integer permission
value; the digits of the textual representation are given as a list,
most significant first.  The M code sums digit(i) * 8 ** (l - i) over
the 1-based positions i.
-/
def mode : List Nat → Nat
  | [] => 0
  | d :: ds => d * 8 ^ ds.length + mode ds

/-
octal (posix.m): integer permission value to octal representation.  The
M loop assigns position 5-i the value mode#8 and divides mode by 8, for
i = 1..4, so the result always has exactly 4 digits.
-/
def octal (m : Nat) : List Nat :=
  let s4 := m % 8
  let m1 := m / 8
  let s3 := m1 % 8
  let m2 := m1 / 8
  let s2 := m2 % 8
  let m3 := m2 / 8
  let s1 := m3 % 8
  [s1, s2, s3, s4]

/-
zbit (posix.m): converts an integer to an l byte long big-endian byte
sequence (the GT.M zbitstring without its leading format byte, which is
identical on both sides of every comparison performed here).
-/
def zbit (n : Nat) : Nat → List Nat
  | 0 => []
  | l + 1 => zbit (n / 256) l ++ [n % 256]

/-
isflag (posix.m): the flag argument is an M numeric literal whose
decimal digits are read as octal digits by the mode helper; the test is
a bytewise AND of the 4-byte zbit vectors compared against the flag
vector, i.e. a bit-containment test.
-/
def isflag (m : Nat) (flagDigits : List Nat) : Bool :=
  let s := zbit (mode flagDigits) 4
  List.zipWith Nat.land (zbit m 4) s == s

/- file-type predicates (posix.m); the digit lists are the decimal
digits of the M literals 0100000, 0040000, ... after M numeric
canonicalization drops the leading zero -/
def isreg (m : Nat) : Bool := isflag m [1, 0, 0, 0, 0, 0]
def isdir (m : Nat) : Bool := isflag m [4, 0, 0, 0, 0]
def ischr (m : Nat) : Bool := isflag m [2, 0, 0, 0, 0]
def isblk (m : Nat) : Bool := isflag m [6, 0, 0, 0, 0]
def isfifo (m : Nat) : Bool := isflag m [1, 0, 0, 0, 0]
def islnk (m : Nat) : Bool := isflag m [1, 2, 0, 0, 0, 0]
def issock (m : Nat) : Bool := isflag m [1, 4, 0, 0, 0, 0]

/- name/value records of the static option tables (struct param) -/
structure param where
  name : List Char
  value : Nat
deriving DecidableEq

/- strcasecmp equality: ASCII case-insensitive comparison -/
def strcaseeq (a b : List Char) : Bool :=
  a.map Char.toLower == b.map Char.toLower

/- _get_param (posix.c): linear scan of a static table, case-insensitive
name match; some value on a hit, none for the -1 failure return -/
def _get_param (table : List param) (name : List Char) : Option Nat :=
  match table with
  | [] => none
  | e :: rest => if strcaseeq e.name name then some e.value else _get_param rest name

/- strtok tokenization over the single-character delimiter "|": maximal
nonempty runs of non-delimiter characters -/
def strtok_go (s : List Char) (cur : List Char) : List (List Char) :=
  match s with
  | [] => if cur = [] then [] else [cur.reverse]
  | c :: s' =>
    if c = '|' then
      if cur = [] then strtok_go s' []
      else cur.reverse :: strtok_go s' []
    else strtok_go s' (c :: cur)

def strtok_toks (s : List Char) : List (List Char) := strtok_go s []

/- _get_flags (posix.c): resolve each token and accumulate the bitwise
OR; an unresolved token makes the whole call fail with EINVAL (none),
discarding the partial mask -/
def _get_flags_go (table : List param) (toks : List (List Char)) (flags : Nat) : Option Nat :=
  match toks with
  | [] => some flags
  | t :: ts =>
    match _get_param table t with
    | none => none
    | some f => _get_flags_go table ts (flags ||| f)

def _get_flags (table : List param) (name : List Char) : Option Nat :=
  _get_flags_go table (strtok_toks name) 0

/- openlog option table (posix.c), with the numeric LOG_* values of the
target platform -/
def option_param : List param :=
  [⟨("CONS").toList, 2⟩,
   ⟨("NDELAY").toList, 8⟩,
   ⟨("NOWAIT").toList, 16⟩,
   ⟨("PID").toList, 1⟩]

/- openlog facility table (posix.c) -/
def facility_param : List param :=
  [⟨("AUTH").toList, 32⟩,
   ⟨("AUTHPRIV").toList, 80⟩,
   ⟨("CRON").toList, 72⟩,
   ⟨("DAEMON").toList, 24⟩,
   ⟨("FTP").toList, 88⟩,
   ⟨("KERN").toList, 0⟩,
   ⟨("LOCAL0").toList, 128⟩,
   ⟨("LOCAL1").toList, 136⟩,
   ⟨("LOCAL2").toList, 144⟩,
   ⟨("LOCAL3").toList, 152⟩,
   ⟨("LOCAL4").toList, 160⟩,
   ⟨("LOCAL5").toList, 168⟩,
   ⟨("LOCAL6").toList, 176⟩,
   ⟨("LOCAL7").toList, 184⟩,
   ⟨("LPR").toList, 48⟩,
   ⟨("MAIL").toList, 16⟩,
   ⟨("NEWS").toList, 56⟩,
   ⟨("SYSLOG").toList, 40⟩,
   ⟨("USER").toList, 8⟩,
   ⟨("UUCP").toList, 64⟩]

/- clock id table of _posix_clock_get (posix.c), with the numeric
CLOCK_* values of the target platform -/
def clk_id_param : List param :=
  [⟨("REALTIME").toList, 0⟩,
   ⟨("MONOTONIC").toList, 1⟩,
   ⟨("MONOTONIC_RAW").toList, 4⟩,
   ⟨("PROCESS_CPUTIME_ID").toList, 2⟩,
   ⟨("THREAD_CPUTIME_ID").toList, 3⟩]

/- syslog priority table of posix_syslog (posix.c) -/
def priority_param : List param :=
  [⟨("EMERG").toList, 0⟩,
   ⟨("ALERT").toList, 1⟩,
   ⟨("CRIT").toList, 2⟩,
   ⟨("ERR").toList, 3⟩,
   ⟨("WARNING").toList, 4⟩,
   ⟨("NOTICE").toList, 5⟩,
   ⟨("INFO").toList, 6⟩,
   ⟨("DEBUG").toList, 7⟩]

/- the tm structure fields the shims copy -/
structure TmBuf where
  tm_sec : Int
  tm_min : Int
  tm_hour : Int
  tm_mday : Int
  tm_mon : Int
  tm_year : Int
  tm_wday : Int
  tm_yday : Int
  tm_isdst : Int
deriving DecidableEq

/- the tms structure fields posix_times copies -/
structure TmsBuf where
  tms_utime : Int
  tms_stime : Int
  tms_cutime : Int
  tms_cstime : Int
deriving DecidableEq

/- the utsname structure fields posix_uname copies -/
structure UtsBuf where
  sysname : List Char
  nodename : List Char
  release : List Char
  version : List Char
  machine : List Char
deriving DecidableEq

/- native libc calls a shim can perform, with their arguments -/
inductive NCall where
  | nopendir (path : List Char)
  | nreaddir (dir : Nat)
  | nclosedir (dir : Nat)
  | ngetpwnam (name : List Char)
  | ngetpwuid (uid : Nat)
  | ngetgrnam (name : List Char)
  | ngetgrgid (gid : Nat)
  | ngetgrent
  | nendgrent
  | nopenlog (ident : List Char) (opt : Nat) (fac : Nat)
  | nmalloc (size : Nat)
  | nreadlink (path : List Char)
  | nstat (path : List Char)
  | nlstat (path : List Char)
  | nsysinfo
  | nlocaltime (t : Int)
  | ngmtime (t : Int)
  | nsetenv (name : List Char) (value : List Char) (overwrite : Int)
  | ntime
  | nclock_gettime (clk_id : Nat)
  | nclock_getres (clk_id : Nat)
  | nmktime (b : TmBuf)
  | nstrftime (format : List Char) (b : TmBuf)
  | ntimes
  | nuname
  | nunsetenv (name : List Char)
  | nsyslog (priority : Nat) (message : List Char)
  | numask (mask : Nat)
  | nlink (oldpath : List Char) (newpath : List Char)
  | nsymlink (oldpath : List Char) (newpath : List Char)
  | nunlink (path : List Char)
  | nmkdir (path : List Char) (mode : Nat)
  | nrmdir (path : List Char)
  | nchmod (path : List Char) (mode : Nat)
  | nchown (path : List Char) (uid : Nat) (gid : Nat)
  | nlchown (path : List Char) (uid : Nat) (gid : Nat)
deriving DecidableEq

/- the hard ceiling of the directory-handle table -/
def dir_limit : Nat := 256

/- in_list with remove = 0 (posix.c): linear membership scan over the
active prefix of dir_list -/
def in_list (p : Nat) (l : List Nat) : Bool := l.contains p

/- in_list with remove = 1 (posix.c): the first slot holding p is
overwritten with the final active element and the count is decremented,
i.e. a swap-remove of the first occurrence -/
def swap_remove (p : Nat) : List Nat → List Nat
  | [] => []
  | x :: xs =>
    if x = p then
      match xs.getLast? with
      | none => []
      | some last => last :: xs.dropLast
    else x :: swap_remove p xs

/-
posix_opendir (posix.c).  Oracle: nret is the native opendir result
(none for a NULL return) and nerr the errno value the native call
leaves after errno was cleared.  dirs is the active prefix of the
dir_list table; e0 is the ambient errno on entry; errnov is the ambient
errno when the shim returns.
-/
structure OpendirR where
  status : Nat
  dirOut : Option Nat
  dirs : List Nat
  calls : List NCall
  errnov : Nat
deriving DecidableEq

def posix_opendir (argc : Nat) (path : List Char) (dirs : List Nat) (e0 : Nat)
    (nret : Option Nat) (nerr : Nat) : OpendirR :=
  if argc ≠ 2 then ⟨ENODATA, none, dirs, [], e0⟩
  else if dirs.length ≥ dir_limit then ⟨EMFILE, none, dirs, [], e0⟩
  else
    match nret with
    | some b => ⟨nerr, some b, dirs ++ [b], [NCall.nopendir path], nerr⟩
    | none => ⟨nerr, none, dirs, [NCall.nopendir path], nerr⟩

/-
posix_readdir (posix.c).  Oracle: nret is the native readdir result
(none for NULL, i.e. end of stream or error) and nerr the errno it
leaves after the clear.  nameOut is the content of the name buffer
without its terminator; none means the buffer was never written.
-/
structure ReaddirR where
  status : Nat
  nameOut : Option (List Char)
  dirs : List Nat
  calls : List NCall
  errnov : Nat
deriving DecidableEq

def posix_readdir (argc : Nat) (dir : Nat) (dirs : List Nat) (e0 : Nat)
    (nret : Option (List Char)) (nerr : Nat) : ReaddirR :=
  if argc ≠ 2 then ⟨ENODATA, none, dirs, [], e0⟩
  else if ¬ in_list dir dirs then ⟨EINVAL, some [], dirs, [], e0⟩
  else
    match nret with
    | some d_name =>
      let c := strncopy d_name 256
      if c.1 ≠ 0 then ⟨ERANGE, some c.2.dropLast, dirs, [NCall.nreaddir dir], nerr⟩
      else ⟨nerr, some c.2.dropLast, dirs, [NCall.nreaddir dir], nerr⟩
    | none => ⟨nerr, some [], dirs, [NCall.nreaddir dir], nerr⟩

/-
posix_closedir (posix.c): the handle is removed from the table before
the native closedir; errno is not cleared in this shim, so nerr is the
ambient errno after the native call.
-/
structure ClosedirR where
  status : Nat
  dirs : List Nat
  calls : List NCall
  errnov : Nat
deriving DecidableEq

def posix_closedir (argc : Nat) (dir : Nat) (dirs : List Nat) (e0 : Nat)
    (nerr : Nat) : ClosedirR :=
  if argc ≠ 1 then ⟨ENODATA, dirs, [], e0⟩
  else if ¬ in_list dir dirs then ⟨EINVAL, dirs, [], e0⟩
  else ⟨nerr, swap_remove dir dirs, [NCall.nclosedir dir], nerr⟩

/- a passwd database entry as returned by the native lookup -/
structure PwEnt where
  pw_name : List Char
  pw_passwd : List Char
  pw_gecos : List Char
  pw_dir : List Char
  pw_shell : List Char
  pw_uid : Nat
  pw_gid : Nat
deriving DecidableEq

structure GetpwR where
  status : Nat
  pw_name : Option (List Char)
  pw_passwd : Option (List Char)
  pw_gecos : Option (List Char)
  pw_dir : Option (List Char)
  pw_shell : Option (List Char)
  pw_uid : Option Nat
  pw_gid : Option Nat
  calls : List NCall
  errnov : Nat
deriving DecidableEq

/-
_posix_getpw (posix.c).  All outputs are zeroed or emptied right after
the arity check; on a NULL native result errno is forced to ENOENT.
The string copies short-circuit: after the first ERANGE the later
fields keep their empty value.
-/
def _posix_getpw (argc : Nat) (name : Option (List Char)) (uid : Nat) (e0 : Nat)
    (nret : Option PwEnt) (nerr : Nat) : GetpwR :=
  if argc ≠ 8 then ⟨ENODATA, none, none, none, none, none, none, none, [], e0⟩
  else
    let call := match name with
      | none => NCall.ngetpwuid uid
      | some nm => NCall.ngetpwnam nm
    match nret with
    | some b =>
      let n1 := strncopy b.pw_name 64
      if n1.1 ≠ 0 then
        ⟨ERANGE, some n1.2.dropLast, some [], some [], some [], some [],
          some b.pw_uid, some b.pw_gid, [call], nerr⟩
      else
        let n2 := strncopy b.pw_passwd 64
        if n2.1 ≠ 0 then
          ⟨ERANGE, some n1.2.dropLast, some n2.2.dropLast, some [], some [], some [],
            some b.pw_uid, some b.pw_gid, [call], nerr⟩
        else
          let n3 := strncopy b.pw_gecos 256
          if n3.1 ≠ 0 then
            ⟨ERANGE, some n1.2.dropLast, some n2.2.dropLast, some n3.2.dropLast, some [], some [],
              some b.pw_uid, some b.pw_gid, [call], nerr⟩
          else
            let n4 := strncopy b.pw_dir 1024
            if n4.1 ≠ 0 then
              ⟨ERANGE, some n1.2.dropLast, some n2.2.dropLast, some n3.2.dropLast,
                some n4.2.dropLast, some [], some b.pw_uid, some b.pw_gid, [call], nerr⟩
            else
              let n5 := strncopy b.pw_shell 1024
              if n5.1 ≠ 0 then
                ⟨ERANGE, some n1.2.dropLast, some n2.2.dropLast, some n3.2.dropLast,
                  some n4.2.dropLast, some n5.2.dropLast, some b.pw_uid, some b.pw_gid,
                  [call], nerr⟩
              else
                ⟨nerr, some n1.2.dropLast, some n2.2.dropLast, some n3.2.dropLast,
                  some n4.2.dropLast, some n5.2.dropLast, some b.pw_uid, some b.pw_gid,
                  [call], nerr⟩
    | none =>
      ⟨ENOENT, some [], some [], some [], some [], some [], some 0, some 0, [call], ENOENT⟩

def posix_getpwnam (argc : Nat) (name : List Char) (e0 : Nat)
    (nret : Option PwEnt) (nerr : Nat) : GetpwR :=
  _posix_getpw argc (some name) 0 e0 nret nerr

def posix_getpwuid (argc : Nat) (uid : Nat) (e0 : Nat)
    (nret : Option PwEnt) (nerr : Nat) : GetpwR :=
  _posix_getpw argc none uid e0 nret nerr

/- a group database entry as returned by the native lookup -/
structure GrEnt where
  gr_name : List Char
  gr_passwd : List Char
  gr_gid : Nat
  gr_mem : List (List Char)
deriving DecidableEq

structure GetgrR where
  status : Nat
  gr_name : Option (List Char)
  gr_passwd : Option (List Char)
  gr_mem : Option (List Char)
  gr_gid : Option Nat
  calls : List NCall
  errnov : Nat
deriving DecidableEq

/-
the gr_mem concatenation loop of _posix_getgr: members joined by the
list delimiter via strpncopy; the accumulated buffer content is kept
without terminator bytes (each terminator is overwritten by the next
piece).  Returns none on the first strpncopy overflow.
-/
def gr_mem_join : List (List Char) → Int → Bool → Option Int × List Char
  | [], l, _ => (some l, [])
  | m :: rest, l, first =>
    let sep : Option Int × List Char :=
      if first then (some l, [])
      else
        let r := strpncopy [('|')] l
        (r.1, r.2.dropLast)
    match sep.1 with
    | none => (none, sep.2)
    | some l1 =>
      let c := strpncopy m l1
      match c.1 with
      | none => (none, sep.2 ++ c.2.dropLast)
      | some l2 =>
        let r := gr_mem_join rest l2 false
        (r.1, sep.2 ++ c.2.dropLast ++ r.2)

/- _posix_getgr (posix.c) -/
def _posix_getgr (argc : Nat) (name : Option (List Char)) (gid : Nat) (e0 : Nat)
    (nret : Option GrEnt) (nerr : Nat) : GetgrR :=
  if argc ≠ 5 then ⟨ENODATA, none, none, none, none, [], e0⟩
  else
    let call := match name with
      | none => NCall.ngetgrgid gid
      | some nm => NCall.ngetgrnam nm
    match nret with
    | some g =>
      let n1 := strncopy g.gr_name 64
      if n1.1 ≠ 0 then
        ⟨ERANGE, some n1.2.dropLast, some [], some [], some g.gr_gid, [call], nerr⟩
      else
        let n2 := strncopy g.gr_passwd 64
        if n2.1 ≠ 0 then
          ⟨ERANGE, some n1.2.dropLast, some n2.2.dropLast, some [], some g.gr_gid, [call], nerr⟩
        else
          let j := gr_mem_join g.gr_mem 4096 true
          match j.1 with
          | none =>
            ⟨ERANGE, some n1.2.dropLast, some n2.2.dropLast, some j.2, some g.gr_gid, [call], nerr⟩
          | some _ =>
            ⟨nerr, some n1.2.dropLast, some n2.2.dropLast, some j.2, some g.gr_gid, [call], nerr⟩
    | none => ⟨ENOENT, some [], some [], some [], some 0, [call], ENOENT⟩

def posix_getgrnam (argc : Nat) (name : List Char) (e0 : Nat)
    (nret : Option GrEnt) (nerr : Nat) : GetgrR :=
  _posix_getgr argc (some name) 0 e0 nret nerr

def posix_getgrgid (argc : Nat) (gid : Nat) (e0 : Nat)
    (nret : Option GrEnt) (nerr : Nat) : GetgrR :=
  _posix_getgr argc none gid e0 nret nerr

/-
the member scan of posix_getgrouplist for one group: every member equal
to name (exact strcmp) emits the group name, preceded by the delimiter
when a group name was already emitted.  Returns remaining capacity
(none after an overflow), the content written, and the found flag.
-/
def ggl_members (mems : List (List Char)) (name : List Char) (gname : List Char)
    (l : Int) (found : Bool) : Option Int × List Char × Bool :=
  match mems with
  | [] => (some l, [], found)
  | m :: rest =>
    if m = name then
      let sep : Option Int × List Char :=
        if found then
          let r := strpncopy [('|')] l
          (r.1, r.2.dropLast)
        else (some l, [])
      match sep.1 with
      | none => (none, sep.2, found)
      | some l1 =>
        let c := strpncopy gname l1
        match c.1 with
        | none => (none, sep.2 ++ c.2.dropLast, true)
        | some l2 =>
          let r := ggl_members rest name gname l2 true
          (r.1, sep.2 ++ c.2.dropLast ++ r.2.1, r.2.2)
    else ggl_members rest name gname l found

/-
the getgrent loop of posix_getgrouplist; the final Nat counts the
getgrent calls that returned a group before the loop stopped.
-/
def ggl_groups (groups : List GrEnt) (name : List Char) (l : Int) (found : Bool) :
    Option Int × List Char × Bool × Nat :=
  match groups with
  | [] => (some l, [], found, 0)
  | g :: rest =>
    let r := ggl_members g.gr_mem name g.gr_name l found
    match r.1 with
    | none => (none, r.2.1, r.2.2, 1)
    | some l1 =>
      let rr := ggl_groups rest name l1 r.2.2
      (rr.1, r.2.1 ++ rr.2.1, rr.2.2.1, rr.2.2.2 + 1)

/-
posix_getgrouplist (posix.c).  Note: this shim has no check_argc; the
argc parameter is ignored and the native calls are always performed.
Oracle: groups is the sequence of entries the native getgrent calls
yield before returning NULL; nerr is the ambient errno when the shim
returns.
-/
structure GglR where
  status : Nat
  listOut : Option (List Char)
  calls : List NCall
  errnov : Nat
deriving DecidableEq

def posix_getgrouplist (argc : Nat) (name : List Char) (groups : List GrEnt)
    (nerr : Nat) : GglR :=
  let r := ggl_groups groups name 4096 false
  match r.1 with
  | none =>
    ⟨ERANGE, some r.2.1,
      List.replicate r.2.2.2 NCall.ngetgrent ++ [NCall.nendgrent], nerr⟩
  | some _ =>
    ⟨nerr, some r.2.1,
      List.replicate (groups.length + 1) NCall.ngetgrent ++ [NCall.nendgrent], nerr⟩

/-
posix_openlog (posix.c).  errno is cleared, the ident string is copied
into a malloc block (mallocOk false models a NULL malloc return with
errno mallocErr), then both flag strings are decoded; a decode failure
returns EINVAL before the native openlog call.
-/
structure OpenlogR where
  status : Nat
  calls : List NCall
  errnov : Nat
deriving DecidableEq

def posix_openlog (argc : Nat) (ident : List Char) (opt_name : List Char)
    (fac_name : List Char) (e0 : Nat) (mallocOk : Bool) (mallocErr : Nat)
    (nerr : Nat) : OpenlogR :=
  if argc ≠ 3 then ⟨ENODATA, [], e0⟩
  else if ¬ mallocOk then ⟨mallocErr, [NCall.nmalloc (ident.length + 1)], mallocErr⟩
  else
    match _get_flags option_param opt_name with
    | none => ⟨EINVAL, [NCall.nmalloc (ident.length + 1)], 0⟩
    | some opt =>
      match _get_flags facility_param fac_name with
      | none => ⟨EINVAL, [NCall.nmalloc (ident.length + 1)], 0⟩
      | some fac =>
        ⟨nerr, [NCall.nmalloc (ident.length + 1), NCall.nopenlog ident opt fac], nerr⟩

/- the stat structure fields the shim copies -/
structure StatBuf where
  st_dev : Nat
  st_ino : Nat
  st_mode : Nat
  st_nlink : Nat
  st_uid : Nat
  st_gid : Nat
  st_rdev : Nat
  st_size : Nat
  st_blksize : Nat
  st_blocks : Nat
  st_atime : Nat
  st_mtime : Nat
  st_ctime : Nat
deriving DecidableEq

structure StatR where
  status : Nat
  st_dev : Option Nat
  st_ino : Option Nat
  st_mode : Option Nat
  st_nlink : Option Nat
  st_uid : Option Nat
  st_gid : Option Nat
  st_rdev : Option Nat
  st_size : Option Nat
  st_blksize : Option Nat
  st_blocks : Option Nat
  atime : Option Nat
  mtime : Option Nat
  ctime : Option Nat
  calls : List NCall
  errnov : Nat
deriving DecidableEq

/-
_posix_stat (posix.c).  Oracle: nret none models a failing native
stat/lstat (the internal buffer is memset to zero but the output
parameters are only written on success), nerr the errno after the call.
-/
def _posix_stat (argc : Nat) (path : List Char) (e0 : Nat) (l : Bool)
    (nret : Option StatBuf) (nerr : Nat) : StatR :=
  if argc ≠ 14 then
    ⟨ENODATA, none, none, none, none, none, none, none, none, none, none,
      none, none, none, [], e0⟩
  else
    let call := if l then NCall.nlstat path else NCall.nstat path
    match nret with
    | some b =>
      ⟨nerr, some b.st_dev, some b.st_ino, some b.st_mode, some b.st_nlink,
        some b.st_uid, some b.st_gid, some b.st_rdev, some b.st_size,
        some b.st_blksize, some b.st_blocks, some b.st_atime, some b.st_mtime,
        some b.st_ctime, [call], nerr⟩
    | none =>
      ⟨nerr, none, none, none, none, none, none, none, none, none, none,
        none, none, none, [call], nerr⟩

def posix_stat (argc : Nat) (path : List Char) (e0 : Nat)
    (nret : Option StatBuf) (nerr : Nat) : StatR :=
  _posix_stat argc path e0 false nret nerr

def posix_lstat (argc : Nat) (path : List Char) (e0 : Nat)
    (nret : Option StatBuf) (nerr : Nat) : StatR :=
  _posix_stat argc path e0 true nret nerr

/- the sysinfo structure fields the shim copies -/
structure SysinfoBuf where
  uptime : Nat
  load1 : Nat
  load5 : Nat
  load15 : Nat
  totalram : Nat
  freeram : Nat
  sharedram : Nat
  bufferram : Nat
  totalswap : Nat
  freeswap : Nat
  procs : Nat
  totalhigh : Nat
  freehigh : Nat
  mem_unit : Nat
deriving DecidableEq

structure SysinfoR where
  status : Nat
  uptime : Option Nat
  load1 : Option Nat
  load5 : Option Nat
  load15 : Option Nat
  totalram : Option Nat
  freeram : Option Nat
  sharedram : Option Nat
  bufferram : Option Nat
  totalswap : Option Nat
  freeswap : Option Nat
  procs : Option Nat
  totalhigh : Option Nat
  freehigh : Option Nat
  mem_unit : Option Nat
  calls : List NCall
  errnov : Nat
deriving DecidableEq

/-
posix_sysinfo (posix.c).  ok false models a failing native sysinfo: the
internal buffer is memset to zero but the outputs are only written on
success.
-/
def posix_sysinfo (argc : Nat) (e0 : Nat) (ok : Bool) (b : SysinfoBuf)
    (nerr : Nat) : SysinfoR :=
  if argc ≠ 14 then
    ⟨ENODATA, none, none, none, none, none, none, none, none, none, none,
      none, none, none, none, [], e0⟩
  else
    if ok then
      ⟨nerr, some b.uptime, some b.load1, some b.load5, some b.load15,
        some b.totalram, some b.freeram, some b.sharedram, some b.bufferram,
        some b.totalswap, some b.freeswap, some b.procs, some b.totalhigh,
        some b.freehigh, some b.mem_unit, [NCall.nsysinfo], nerr⟩
    else
      ⟨nerr, none, none, none, none, none, none, none, none, none, none,
        none, none, none, none, [NCall.nsysinfo], nerr⟩

structure TimeR where
  status : Nat
  tm_sec : Option Int
  tm_min : Option Int
  tm_hour : Option Int
  tm_mday : Option Int
  tm_mon : Option Int
  tm_year : Option Int
  tm_wday : Option Int
  tm_yday : Option Int
  tm_isdst : Option Int
  calls : List NCall
  errnov : Nat
deriving DecidableEq

/-
_posix_time (posix.c): localtime/gmtime wrapper; a NULL native result
(nret none) makes the shim write zero into every output field.
-/
def _posix_time (argc : Nat) (t : Int) (e0 : Nat) (localFlag : Bool)
    (nret : Option TmBuf) (nerr : Nat) : TimeR :=
  if argc ≠ 10 then
    ⟨ENODATA, none, none, none, none, none, none, none, none, none, [], e0⟩
  else
    let call := if localFlag then NCall.nlocaltime t else NCall.ngmtime t
    match nret with
    | some b =>
      ⟨nerr, some b.tm_sec, some b.tm_min, some b.tm_hour, some b.tm_mday,
        some b.tm_mon, some b.tm_year, some b.tm_wday, some b.tm_yday,
        some b.tm_isdst, [call], nerr⟩
    | none =>
      ⟨nerr, some 0, some 0, some 0, some 0, some 0, some 0, some 0, some 0,
        some 0, [call], nerr⟩

def posix_localtime (argc : Nat) (t : Int) (e0 : Nat)
    (nret : Option TmBuf) (nerr : Nat) : TimeR :=
  _posix_time argc t e0 true nret nerr

def posix_gmtime (argc : Nat) (t : Int) (e0 : Nat)
    (nret : Option TmBuf) (nerr : Nat) : TimeR :=
  _posix_time argc t e0 false nret nerr

/-
posix_readlink (posix.c).  Oracle: nret is the native readlink return
value (-1 on failure, otherwise the number of bytes placed in the
buffer of size 1024, at most 1023).  The shim then writes the
terminating NUL at index nret of the buffer: nulIndex records that
index; none means no write happened (wrong arity).
-/
structure ReadlinkR where
  status : Nat
  nulIndex : Option Int
  calls : List NCall
  errnov : Nat
deriving DecidableEq

def posix_readlink (argc : Nat) (path : List Char) (e0 : Nat)
    (nret : Int) (nerr : Nat) : ReadlinkR :=
  if argc ≠ 2 then ⟨ENODATA, none, [], e0⟩
  else ⟨nerr, some nret, [NCall.nreadlink path], nerr⟩

/- posix_setenv (posix.c); errno is not cleared in this shim -/
structure SetenvR where
  status : Nat
  calls : List NCall
  errnov : Nat
deriving DecidableEq

def posix_setenv (argc : Nat) (name : List Char) (value : List Char)
    (overwrite : Int) (e0 : Nat) (nerr : Nat) : SetenvR :=
  if argc ≠ 3 then ⟨ENODATA, [], e0⟩
  else ⟨nerr, [NCall.nsetenv name value overwrite], nerr⟩

/-
posix_time (posix.c): the argc parameter is declared UNUSED; the native
time call is performed and returned whatever the argument count is.
-/
def posix_time (argc : Nat) (t : Nat) : Nat × List NCall :=
  (t, [NCall.ntime])

/-
_posix_clock_get (posix.c): clock_gettime/clock_getres wrapper.  The
clock id string is resolved before errno is cleared; an unknown id
returns EINVAL without a native call.  Oracle: nret is the timespec the
native call fills (none models a failing call that leaves the zeroed
buffer untouched); the outputs are written in either case.
-/
structure ClockR where
  status : Nat
  tv_sec : Option Int
  tv_nsec : Option Int
  calls : List NCall
  errnov : Nat
deriving DecidableEq

def _posix_clock_get (argc : Nat) (clk_id_name : List Char) (e0 : Nat)
    (gettime : Bool) (nret : Option (Int × Int)) (nerr : Nat) : ClockR :=
  if argc ≠ 3 then ⟨ENODATA, none, none, [], e0⟩
  else
    match _get_param clk_id_param clk_id_name with
    | none => ⟨EINVAL, none, none, [], e0⟩
    | some clk_id =>
      let call := if gettime then NCall.nclock_gettime clk_id
                  else NCall.nclock_getres clk_id
      let b := nret.getD (0, 0)
      ⟨nerr, some b.1, some b.2, [call], nerr⟩

def posix_clock_gettime (argc : Nat) (clk_id_name : List Char) (e0 : Nat)
    (nret : Option (Int × Int)) (nerr : Nat) : ClockR :=
  _posix_clock_get argc clk_id_name e0 true nret nerr

def posix_clock_getres (argc : Nat) (clk_id_name : List Char) (e0 : Nat)
    (nret : Option (Int × Int)) (nerr : Nat) : ClockR :=
  _posix_clock_get argc clk_id_name e0 false nret nerr

/-
posix_mktime (posix.c): fills a tm buffer from the inputs and returns
the native mktime value directly; a wrong argument count returns
ENODATA as that value, with no native call.
-/
def posix_mktime (argc : Nat) (b : TmBuf) (nret : Int) : Int × List NCall :=
  if argc ≠ 9 then (ENODATA, []) else (nret, [NCall.nmktime b])

/-
posix_strftime (posix.c).  Oracle: nout is the formatted text the
native strftime leaves in the 128-byte buffer (the shim empties the
buffer before the call and terminates it after, both inside bounds).
sOut is the buffer content; none means the buffer was never written.
-/
structure StrftimeR where
  status : Nat
  sOut : Option (List Char)
  calls : List NCall
  errnov : Nat
deriving DecidableEq

def posix_strftime (argc : Nat) (format : List Char) (b : TmBuf) (e0 : Nat)
    (nout : List Char) (nerr : Nat) : StrftimeR :=
  if argc ≠ 11 then ⟨ENODATA, none, [], e0⟩
  else ⟨nerr, some nout, [NCall.nstrftime format b], nerr⟩

/-
posix_times (posix.c): the buffer is zeroed, times is called and all
four fields are copied out unconditionally.  Oracle: b is the buffer
content after the native call.
-/
structure TimesR where
  status : Nat
  tms_utime : Option Int
  tms_stime : Option Int
  tms_cutime : Option Int
  tms_cstime : Option Int
  calls : List NCall
  errnov : Nat
deriving DecidableEq

def posix_times (argc : Nat) (e0 : Nat) (b : TmsBuf) (nerr : Nat) : TimesR :=
  if argc ≠ 4 then ⟨ENODATA, none, none, none, none, [], e0⟩
  else
    ⟨nerr, some b.tms_utime, some b.tms_stime, some b.tms_cutime,
      some b.tms_cstime, [NCall.ntimes], nerr⟩

/-
posix_uname (posix.c): all five output strings are emptied before the
native call; on success each utsname field is copied with capacity 128,
short-circuiting to ERANGE on the first overflow (later fields keep
their empty value).
-/
structure UnameR where
  status : Nat
  sysname : Option (List Char)
  nodename : Option (List Char)
  release : Option (List Char)
  version : Option (List Char)
  machine : Option (List Char)
  calls : List NCall
  errnov : Nat
deriving DecidableEq

def posix_uname (argc : Nat) (e0 : Nat) (ok : Bool) (b : UtsBuf)
    (nerr : Nat) : UnameR :=
  if argc ≠ 5 then ⟨ENODATA, none, none, none, none, none, [], e0⟩
  else
    if ok then
      let n1 := strncopy b.sysname 128
      if n1.1 ≠ 0 then
        ⟨ERANGE, some n1.2.dropLast, some [], some [], some [], some [],
          [NCall.nuname], nerr⟩
      else
        let n2 := strncopy b.nodename 128
        if n2.1 ≠ 0 then
          ⟨ERANGE, some n1.2.dropLast, some n2.2.dropLast, some [], some [],
            some [], [NCall.nuname], nerr⟩
        else
          let n3 := strncopy b.release 128
          if n3.1 ≠ 0 then
            ⟨ERANGE, some n1.2.dropLast, some n2.2.dropLast, some n3.2.dropLast,
              some [], some [], [NCall.nuname], nerr⟩
          else
            let n4 := strncopy b.version 128
            if n4.1 ≠ 0 then
              ⟨ERANGE, some n1.2.dropLast, some n2.2.dropLast, some n3.2.dropLast,
                some n4.2.dropLast, some [], [NCall.nuname], nerr⟩
            else
              let n5 := strncopy b.machine 128
              if n5.1 ≠ 0 then
                ⟨ERANGE, some n1.2.dropLast, some n2.2.dropLast, some n3.2.dropLast,
                  some n4.2.dropLast, some n5.2.dropLast, [NCall.nuname], nerr⟩
              else
                ⟨nerr, some n1.2.dropLast, some n2.2.dropLast, some n3.2.dropLast,
                  some n4.2.dropLast, some n5.2.dropLast, [NCall.nuname], nerr⟩
    else ⟨nerr, some [], some [], some [], some [], some [], [NCall.nuname], nerr⟩

/- result of the shims whose only observables are the returned status,
the native calls performed and the final ambient errno -/
structure SimpleR where
  status : Nat
  calls : List NCall
  errnov : Nat
deriving DecidableEq

/- posix_unsetenv (posix.c); errno is not cleared in this shim -/
def posix_unsetenv (argc : Nat) (name : List Char) (e0 : Nat) (nerr : Nat) : SimpleR :=
  if argc ≠ 1 then ⟨ENODATA, [], e0⟩
  else ⟨nerr, [NCall.nunsetenv name], nerr⟩

/- posix_syslog (posix.c): the priority string is resolved before errno
is cleared; an unknown priority returns EINVAL without a native call -/
def posix_syslog (argc : Nat) (priority_name : List Char) (message : List Char)
    (e0 : Nat) (nerr : Nat) : SimpleR :=
  if argc ≠ 2 then ⟨ENODATA, [], e0⟩
  else
    match _get_param priority_param priority_name with
    | none => ⟨EINVAL, [], e0⟩
    | some priority => ⟨nerr, [NCall.nsyslog priority message], nerr⟩

/- posix_umask (posix.c): returns the native umask value directly; a
wrong argument count returns ENODATA as that value, no native call -/
def posix_umask (argc : Nat) (mask : Nat) (nret : Nat) : Nat × List NCall :=
  if argc ≠ 1 then (ENODATA, []) else (nret, [NCall.numask mask])

/- _posix_link (posix.c): link/symlink wrapper -/
def _posix_link (argc : Nat) (oldpath newpath : List Char) (sym : Bool)
    (e0 : Nat) (nerr : Nat) : SimpleR :=
  if argc ≠ 2 then ⟨ENODATA, [], e0⟩
  else
    let call := if sym then NCall.nsymlink oldpath newpath
                else NCall.nlink oldpath newpath
    ⟨nerr, [call], nerr⟩

def posix_link (argc : Nat) (oldpath newpath : List Char) (e0 : Nat)
    (nerr : Nat) : SimpleR :=
  _posix_link argc oldpath newpath false e0 nerr

def posix_symlink (argc : Nat) (oldpath newpath : List Char) (e0 : Nat)
    (nerr : Nat) : SimpleR :=
  _posix_link argc oldpath newpath true e0 nerr

/- posix_unlink (posix.c) -/
def posix_unlink (argc : Nat) (path : List Char) (e0 : Nat) (nerr : Nat) : SimpleR :=
  if argc ≠ 1 then ⟨ENODATA, [], e0⟩
  else ⟨nerr, [NCall.nunlink path], nerr⟩

/- posix_mkdir (posix.c) -/
def posix_mkdir (argc : Nat) (path : List Char) (mode : Nat) (e0 : Nat)
    (nerr : Nat) : SimpleR :=
  if argc ≠ 2 then ⟨ENODATA, [], e0⟩
  else ⟨nerr, [NCall.nmkdir path mode], nerr⟩

/- posix_rmdir (posix.c) -/
def posix_rmdir (argc : Nat) (path : List Char) (e0 : Nat) (nerr : Nat) : SimpleR :=
  if argc ≠ 1 then ⟨ENODATA, [], e0⟩
  else ⟨nerr, [NCall.nrmdir path], nerr⟩

/- posix_chmod (posix.c) -/
def posix_chmod (argc : Nat) (path : List Char) (mode : Nat) (e0 : Nat)
    (nerr : Nat) : SimpleR :=
  if argc ≠ 2 then ⟨ENODATA, [], e0⟩
  else ⟨nerr, [NCall.nchmod path mode], nerr⟩

/- _posix_chown (posix.c): chown/lchown wrapper -/
def _posix_chown (argc : Nat) (path : List Char) (uid gid : Nat) (l : Bool)
    (e0 : Nat) (nerr : Nat) : SimpleR :=
  if argc ≠ 3 then ⟨ENODATA, [], e0⟩
  else
    let call := if l then NCall.nlchown path uid gid else NCall.nchown path uid gid
    ⟨nerr, [call], nerr⟩

def posix_chown (argc : Nat) (path : List Char) (uid gid : Nat) (e0 : Nat)
    (nerr : Nat) : SimpleR :=
  _posix_chown argc path uid gid false e0 nerr

def posix_lchown (argc : Nat) (path : List Char) (uid gid : Nat) (e0 : Nat)
    (nerr : Nat) : SimpleR :=
  _posix_chown argc path uid gid true e0 nerr

/- ------------------------------------------------------------------ -/
/- helper lemmas                                                       -/
/- ------------------------------------------------------------------ -/

lemma getLast?_cons_of_getLast?_eq_some {c x : Char} {l : List Char}
    (h : l.getLast? = some x) : (c :: l).getLast? = some x := by
  cases l with
  | nil => simp at h
  | cons y ys => rw [List.getLast?_cons_cons]; exact h

lemma in_list_iff_mem (p : Nat) (l : List Nat) : in_list p l = true ↔ p ∈ l := by
  simp [in_list]

lemma in_list_eq_false_iff (p : Nat) (l : List Nat) : in_list p l = false ↔ p ∉ l := by
  simp [in_list]

lemma swap_remove_perm (p : Nat) :
    ∀ l : List Nat, p ∈ l → List.Perm (swap_remove p l) (l.erase p) := by
  intro l
  induction l with
  | nil => intro h; simp at h
  | cons x xs ih =>
    intro h
    by_cases hx : x = p
    · subst hx
      cases xs with
      | nil => simp [swap_remove]
      | cons y ys =>
        have hne : (y :: ys) ≠ ([] : List Nat) := by simp
        have hlast : (y :: ys).getLast? = some ((y :: ys).getLast hne) :=
          List.getLast?_eq_getLast_of_ne_nil hne
        simp only [swap_remove, if_pos rfl, hlast, List.erase_cons_head]
        have h1 : List.Perm ((y :: ys).dropLast ++ [(y :: ys).getLast hne])
            ((y :: ys).getLast hne :: (y :: ys).dropLast) :=
          List.perm_append_singleton _ _
        rw [List.dropLast_append_getLast hne] at h1
        exact h1.symm
    · have hmem : p ∈ xs := by
        rcases List.mem_cons.mp h with h1 | h1
        · exact absurd h1.symm hx
        · exact h1
      rw [List.erase_cons_tail (not_beq_of_ne hx)]
      simp only [swap_remove, if_neg hx]
      exact List.Perm.cons x (ih hmem)

lemma swap_remove_count (p : Nat) (l : List Nat) (h : p ∈ l) :
    (swap_remove p l).count p = l.count p - 1 := by
  rw [List.Perm.count_eq (swap_remove_perm p l h), List.count_erase_self]

lemma swap_remove_not_mem (p : Nat) (l : List Nat) (h : p ∈ l)
    (hone : l.count p = 1) : p ∉ swap_remove p l := by
  have hc : (swap_remove p l).count p = 0 := by
    rw [swap_remove_count p l h, hone]
  exact (List.count_eq_zero).mp hc

lemma swap_remove_of_not_mem (p : Nat) :
    ∀ l : List Nat, p ∉ l → swap_remove p l = l := by
  intro l
  induction l with
  | nil => intro _; rfl
  | cons x xs ih =>
    intro h
    have hx : x ≠ p := fun e => h (e ▸ List.mem_cons_self x xs)
    simp only [swap_remove, if_neg hx]
    rw [ih (fun hm => h (List.mem_cons_of_mem x hm))]

lemma swap_remove_length_le (p : Nat) (l : List Nat) :
    (swap_remove p l).length ≤ l.length := by
  by_cases h : p ∈ l
  · rw [(swap_remove_perm p l h).length_eq]
    have := List.length_erase_add_one h
    omega
  · rw [swap_remove_of_not_mem p l h]

/- ------------------------------------------------------------------ -/
/- C1                                                                  -/
/- ------------------------------------------------------------------ -/

/-- C1: the claim states that for a mode value representing a single
canonical file type exactly one of the predicates isreg, isdir, ischr,
isblk, isfifo, islnk, issock is true.  The code violates this: isflag is
a bit-containment test, so for the socket mode 0140000 (49152) the
predicates isreg, isdir and issock are all true, although the source
comment claims equivalence with the POSIX S_IS* macros, under which only
issock would hold.  This theorem evaluates the predicates at that
failing input. -/
theorem c1_socket_mode_satisfies_three_predicates :
    isreg 49152 = true ∧ isdir 49152 = true ∧ issock 49152 = true ∧
    ischr 49152 = false ∧ isblk 49152 = false ∧ isfifo 49152 = false ∧
    islnk 49152 = false := by decide

/- ------------------------------------------------------------------ -/
/- C2                                                                  -/
/- ------------------------------------------------------------------ -/

/-- C2 counterexample: the claimed round trip octal (mode s) = s fails
for the valid 3-digit octal string 644, because octal always produces
exactly 4 digits. -/
theorem c2_octal_mode_counterexample :
    octal (mode [6, 4, 4]) = [0, 6, 4, 4] ∧ octal (mode [6, 4, 4]) ≠ [6, 4, 4] := by
  decide

/-- C2 amended: the round trip octal (mode s) = s holds for every
4-digit octal string (shorter strings only round-trip up to left
zero-padding), and mode (octal n) = n holds for every n between 0 and
511. -/
theorem c2_mode_octal_roundtrip (a b c d n : Nat)
    (ha : a < 8) (hb : b < 8) (hc : c < 8) (hd : d < 8) (hn : n ≤ 511) :
    octal (mode [a, b, c, d]) = [a, b, c, d] ∧ mode (octal n) = n := by
  constructor
  · have hm : mode [a, b, c, d] = 512 * a + 64 * b + 8 * c + d := by
      simp [mode]; ring
    rw [hm]
    simp only [octal, List.cons.injEq, and_true]
    refine ⟨?_, ?_, ?_, ?_⟩ <;> omega
  · simp only [octal, mode, List.length, Nat.pow_succ, Nat.pow_zero]
    omega

/-- C2 witness. -/
theorem c2_mode_octal_roundtrip_witness :
    octal (mode [0, 7, 5, 5]) = [0, 7, 5, 5] ∧ mode (octal 420) = 420 :=
  c2_mode_octal_roundtrip 0 7 5 5 420 (by decide) (by decide) (by decide)
    (by decide) (by decide)

/- ------------------------------------------------------------------ -/
/- C4                                                                  -/
/- ------------------------------------------------------------------ -/

/-- C4: the claim states that posix_readlink always writes the
terminating NUL inside the 1024-byte buffer.  When the native readlink
fails it returns -1 and the code executes name[-1] = NUL, one byte
before the buffer: the claimed bound 0 <= index <= 1023 is violated. -/
theorem c4_readlink_nul_write_out_of_bounds :
    (posix_readlink 2 [] 0 (-1) 2).nulIndex = some (-1) ∧
    ¬ (0 ≤ (-1 : Int) ∧ (-1 : Int) ≤ 1023) := by decide

/- ------------------------------------------------------------------ -/
/- C6                                                                  -/
/- ------------------------------------------------------------------ -/

/-- C6 counterexample: the string ab plus its terminator fits exactly in
a capacity-3 buffer, yet strncopy returns ERANGE instead of the claimed
0; success requires strictly more capacity than the string plus
terminator. -/
theorem c6_strncopy_exact_fit_counterexample :
    (['a', 'b'] : List Char).length + 1 ≤ 3 ∧
    (strncopy ['a', 'b'] 3).1 = ERANGE ∧ (strncopy ['a', 'b'] 3).1 ≠ 0 := by
  decide

/-- C6 amended: strncopy succeeds (returns 0) exactly when the source
length plus terminator is strictly below the capacity n (length + 2 <=
n), and fails with ERANGE exactly otherwise; in every case the bytes
written end with a NUL, so the output buffer is always null-terminated
at whatever was written.  The same capacity condition governs
strpncopy's success. -/
theorem c6_strncopy_capacity (s : List Char) (n : Int) :
    ((strncopy s n).1 = 0 ↔ (s.length : Int) + 2 ≤ n) ∧
    ((strncopy s n).1 = ERANGE ↔ n < (s.length : Int) + 2) ∧
    (strncopy s n).2.getLast? = some nulc ∧
    ((strpncopy s n).1.isSome ↔ (s.length : Int) + 2 ≤ n) ∧
    (strpncopy s n).2.getLast? = some nulc := by
  induction s generalizing n with
  | nil =>
    by_cases h : n ≤ 1 <;>
      refine ⟨?_, ?_, ?_, ?_, ?_⟩ <;>
        simp [strncopy, strpncopy, h, ERANGE] <;> omega
  | cons c s' ih =>
    by_cases h : n ≤ 1
    · refine ⟨?_, ?_, ?_, ?_, ?_⟩ <;>
        simp [strncopy, strpncopy, h, ERANGE] <;> omega
    · obtain ⟨ih1, ih2, ih3, ih4, ih5⟩ := ih (n - 1)
      refine ⟨?_, ?_, ?_, ?_, ?_⟩
      · simp only [strncopy, if_neg h]
        rw [ih1]
        simp only [List.length_cons]
        push_cast
        omega
      · simp only [strncopy, if_neg h]
        rw [ih2]
        simp only [List.length_cons]
        push_cast
        omega
      · simp only [strncopy, if_neg h]
        exact getLast?_cons_of_getLast?_eq_some ih3
      · simp only [strpncopy, if_neg h]
        rw [ih4]
        simp only [List.length_cons]
        push_cast
        omega
      · simp only [strpncopy, if_neg h]
        exact getLast?_cons_of_getLast?_eq_some ih5

/- ------------------------------------------------------------------ -/
/- C9                                                                  -/
/- ------------------------------------------------------------------ -/

/-- C9: when the native password or group lookup returns NULL (entry not
in the database), all four lookup shims return the non-zero not-found
status ENOENT and force the ambient errno to ENOENT, whatever errno the
native call itself left behind (in particular when it left 0, i.e. set
no error indicator at all). -/
theorem c9_lookup_not_found_forced_enoent (name : List Char) (uid gid e0 nerr : Nat) :
    (posix_getpwnam 8 name e0 none nerr).status = ENOENT ∧
    (posix_getpwnam 8 name e0 none nerr).status ≠ 0 ∧
    (posix_getpwnam 8 name e0 none nerr).errnov = ENOENT ∧
    (posix_getpwuid 8 uid e0 none nerr).status = ENOENT ∧
    (posix_getpwuid 8 uid e0 none nerr).errnov = ENOENT ∧
    (posix_getgrnam 5 name e0 none nerr).status = ENOENT ∧
    (posix_getgrnam 5 name e0 none nerr).status ≠ 0 ∧
    (posix_getgrnam 5 name e0 none nerr).errnov = ENOENT ∧
    (posix_getgrgid 5 gid e0 none nerr).status = ENOENT ∧
    (posix_getgrgid 5 gid e0 none nerr).errnov = ENOENT := by
  refine ⟨rfl, (by decide : (2 : Nat) ≠ 0), rfl, rfl, rfl, rfl,
    (by decide : (2 : Nat) ≠ 0), rfl, rfl, rfl⟩

/- ------------------------------------------------------------------ -/
/- C5                                                                  -/
/- ------------------------------------------------------------------ -/

/-- C5 counterexample: when the native stat call fails, posix_stat
leaves every output field unwritten (only its internal buffer was
zeroed), contradicting the claim that every output field is
zero-initialized or empty-stringed on failure. -/
theorem c5_stat_failure_outputs_unwritten :
    (posix_stat 14 [] 0 none 2).status = 2 ∧
    (posix_stat 14 [] 0 none 2).status ≠ 0 ∧
    (posix_stat 14 [] 0 none 2).st_dev = none ∧
    (posix_stat 14 [] 0 none 2).st_mode = none ∧
    (posix_stat 14 [] 0 none 2).st_size = none := by decide

/-- C5 amended: on native failure, localtime/gmtime zero-fill all nine
output fields, and the passwd/group lookups leave their outputs at the
zero/empty values written before the native call; but stat, lstat and
sysinfo leave every output field unwritten on failure (only an internal
buffer is zeroed), so their callers do not observe a zero-filled result
structure. -/
theorem c5_failure_output_initialization (path nm : List Char) (t : Int)
    (uid gid e0 nerr : Nat) (b : SysinfoBuf) :
    posix_stat 14 path e0 none nerr =
      ⟨nerr, none, none, none, none, none, none, none, none, none, none,
        none, none, none, [NCall.nstat path], nerr⟩ ∧
    posix_lstat 14 path e0 none nerr =
      ⟨nerr, none, none, none, none, none, none, none, none, none, none,
        none, none, none, [NCall.nlstat path], nerr⟩ ∧
    posix_sysinfo 14 e0 false b nerr =
      ⟨nerr, none, none, none, none, none, none, none, none, none, none,
        none, none, none, none, [NCall.nsysinfo], nerr⟩ ∧
    posix_localtime 10 t e0 none nerr =
      ⟨nerr, some 0, some 0, some 0, some 0, some 0, some 0, some 0, some 0,
        some 0, [NCall.nlocaltime t], nerr⟩ ∧
    posix_gmtime 10 t e0 none nerr =
      ⟨nerr, some 0, some 0, some 0, some 0, some 0, some 0, some 0, some 0,
        some 0, [NCall.ngmtime t], nerr⟩ ∧
    posix_getpwnam 8 nm e0 none nerr =
      ⟨ENOENT, some [], some [], some [], some [], some [], some 0, some 0,
        [NCall.ngetpwnam nm], ENOENT⟩ ∧
    posix_getpwuid 8 uid e0 none nerr =
      ⟨ENOENT, some [], some [], some [], some [], some [], some 0, some 0,
        [NCall.ngetpwuid uid], ENOENT⟩ ∧
    posix_getgrnam 5 nm e0 none nerr =
      ⟨ENOENT, some [], some [], some [], some 0, [NCall.ngetgrnam nm], ENOENT⟩ ∧
    posix_getgrgid 5 gid e0 none nerr =
      ⟨ENOENT, some [], some [], some [], some 0, [NCall.ngetgrgid gid], ENOENT⟩ := by
  refine ⟨rfl, rfl, rfl, rfl, rfl, rfl, rfl, rfl, rfl⟩

/- ------------------------------------------------------------------ -/
/- C3                                                                  -/
/- ------------------------------------------------------------------ -/

/-- C3 counterexample: posix_getgrouplist has fixed arity 2 but performs
no arity check at all; called with 5 arguments it still runs its native
getgrent loop and returns the ambient errno (0 here) instead of the
claimed ENODATA. -/
theorem c3_getgrouplist_missing_arity_check :
    (posix_getgrouplist 5 [('r')] [] 0).status = 0 ∧
    (posix_getgrouplist 5 [('r')] [] 0).status ≠ ENODATA ∧
    (posix_getgrouplist 5 [('r')] [] 0).calls = [NCall.ngetgrent, NCall.nendgrent] := by
  decide

/-- C3 amended: every exposed operation except posix_time and
posix_getgrouplist returns ENODATA whenever its argument count differs
from its own fixed arity, performing no native call, writing no output
and leaving the ambient errno and the directory-handle set unchanged
(the two value-returning operations mktime and umask return ENODATA as
their value); posix_time and posix_getgrouplist ignore the argument
count entirely (posix_time always performs its native call, and
posix_getgrouplist behaves identically for every argument count).
Each operation below is quantified over every argument count other
than its own arity: b1 ranges over counts other than 1 for the
arity-1 operations, b2 over counts other than 2, and so on. -/
theorem c3_arity_check
    (b1 b2 b3 b4 b5 b8 b9 b10 b11 b14 aT aG : Nat)
    (d uid gid tN mask md umret : Nat) (t rl ow mkret : Int)
    (path nm v ident optn facn fmt msg prio clkn op np sfout : List Char)
    (dirs : List Nat) (e0 nerr merr : Nat) (mok ok : Bool)
    (pw : Option PwEnt) (gr : Option GrEnt) (groups : List GrEnt)
    (sb : SysinfoBuf) (tm : Option TmBuf) (tmb : TmBuf) (tmsb : TmsBuf)
    (utsb : UtsBuf) (clkret : Option (Int × Int)) (nret : Option Nat)
    (nrd : Option (List Char)) (st : Option StatBuf)
    (hb1 : b1 ≠ 1) (hb2 : b2 ≠ 2) (hb3 : b3 ≠ 3) (hb4 : b4 ≠ 4)
    (hb5 : b5 ≠ 5) (hb8 : b8 ≠ 8) (hb9 : b9 ≠ 9) (hb10 : b10 ≠ 10)
    (hb11 : b11 ≠ 11) (hb14 : b14 ≠ 14) :
    posix_opendir b2 path dirs e0 nret nerr = ⟨ENODATA, none, dirs, [], e0⟩ ∧
    posix_readdir b2 d dirs e0 nrd nerr = ⟨ENODATA, none, dirs, [], e0⟩ ∧
    posix_closedir b1 d dirs e0 nerr = ⟨ENODATA, dirs, [], e0⟩ ∧
    posix_getpwnam b8 nm e0 pw nerr =
      ⟨ENODATA, none, none, none, none, none, none, none, [], e0⟩ ∧
    posix_getpwuid b8 uid e0 pw nerr =
      ⟨ENODATA, none, none, none, none, none, none, none, [], e0⟩ ∧
    posix_getgrnam b5 nm e0 gr nerr = ⟨ENODATA, none, none, none, none, [], e0⟩ ∧
    posix_getgrgid b5 gid e0 gr nerr = ⟨ENODATA, none, none, none, none, [], e0⟩ ∧
    posix_openlog b3 ident optn facn e0 mok merr nerr = ⟨ENODATA, [], e0⟩ ∧
    posix_stat b14 path e0 st nerr =
      ⟨ENODATA, none, none, none, none, none, none, none, none, none, none,
        none, none, none, [], e0⟩ ∧
    posix_lstat b14 path e0 st nerr =
      ⟨ENODATA, none, none, none, none, none, none, none, none, none, none,
        none, none, none, [], e0⟩ ∧
    posix_sysinfo b14 e0 ok sb nerr =
      ⟨ENODATA, none, none, none, none, none, none, none, none, none, none,
        none, none, none, none, [], e0⟩ ∧
    posix_localtime b10 t e0 tm nerr =
      ⟨ENODATA, none, none, none, none, none, none, none, none, none, [], e0⟩ ∧
    posix_gmtime b10 t e0 tm nerr =
      ⟨ENODATA, none, none, none, none, none, none, none, none, none, [], e0⟩ ∧
    posix_readlink b2 path e0 rl nerr = ⟨ENODATA, none, [], e0⟩ ∧
    posix_setenv b3 nm v ow e0 nerr = ⟨ENODATA, [], e0⟩ ∧
    posix_clock_gettime b3 clkn e0 clkret nerr = ⟨ENODATA, none, none, [], e0⟩ ∧
    posix_clock_getres b3 clkn e0 clkret nerr = ⟨ENODATA, none, none, [], e0⟩ ∧
    posix_mktime b9 tmb mkret = ((ENODATA : Int), ([] : List NCall)) ∧
    posix_strftime b11 fmt tmb e0 sfout nerr = ⟨ENODATA, none, [], e0⟩ ∧
    posix_times b4 e0 tmsb nerr = ⟨ENODATA, none, none, none, none, [], e0⟩ ∧
    posix_uname b5 e0 ok utsb nerr =
      ⟨ENODATA, none, none, none, none, none, [], e0⟩ ∧
    posix_unsetenv b1 nm e0 nerr = ⟨ENODATA, [], e0⟩ ∧
    posix_syslog b2 prio msg e0 nerr = ⟨ENODATA, [], e0⟩ ∧
    posix_umask b1 mask umret = (ENODATA, []) ∧
    posix_link b2 op np e0 nerr = ⟨ENODATA, [], e0⟩ ∧
    posix_symlink b2 op np e0 nerr = ⟨ENODATA, [], e0⟩ ∧
    posix_unlink b1 path e0 nerr = ⟨ENODATA, [], e0⟩ ∧
    posix_mkdir b2 path md e0 nerr = ⟨ENODATA, [], e0⟩ ∧
    posix_rmdir b1 path e0 nerr = ⟨ENODATA, [], e0⟩ ∧
    posix_chmod b2 path md e0 nerr = ⟨ENODATA, [], e0⟩ ∧
    posix_chown b3 path uid gid e0 nerr = ⟨ENODATA, [], e0⟩ ∧
    posix_lchown b3 path uid gid e0 nerr = ⟨ENODATA, [], e0⟩ ∧
    posix_time aT tN = (tN, [NCall.ntime]) ∧
    posix_getgrouplist aG nm groups nerr = posix_getgrouplist 2 nm groups nerr := by
  refine ⟨?_, ?_, ?_, ?_, ?_, ?_, ?_, ?_, ?_, ?_, ?_, ?_, ?_, ?_, ?_, ?_, ?_,
    ?_, ?_, ?_, ?_, ?_, ?_, ?_, ?_, ?_, ?_, ?_, ?_, ?_, ?_, ?_, rfl, rfl⟩ <;>
    simp [posix_opendir, posix_readdir, posix_closedir, posix_getpwnam,
      posix_getpwuid, _posix_getpw, posix_getgrnam, posix_getgrgid, _posix_getgr,
      posix_openlog, posix_stat, posix_lstat, _posix_stat, posix_sysinfo,
      posix_localtime, posix_gmtime, _posix_time, posix_readlink, posix_setenv,
      posix_clock_gettime, posix_clock_getres, _posix_clock_get, posix_mktime,
      posix_strftime, posix_times, posix_uname, posix_unsetenv, posix_syslog,
      posix_umask, posix_link, posix_symlink, _posix_link, posix_unlink,
      posix_mkdir, posix_rmdir, posix_chmod, posix_chown, posix_lchown,
      _posix_chown, hb1, hb2, hb3, hb4, hb5, hb8, hb9, hb10, hb11, hb14]

/-- C3 witness: the arity-2 posix_opendir called with 3 arguments, the
arity-1 posix_closedir called with 2 arguments, and the arity-1
posix_umask called with 2 arguments. -/
theorem c3_arity_check_witness :
    posix_opendir 3 [] [] 0 none 0 = ⟨ENODATA, none, [], [], 0⟩ ∧
    posix_closedir 2 0 [] 0 0 = ⟨ENODATA, [], [], 0⟩ ∧
    posix_umask 2 0 0 = (ENODATA, []) := by
  obtain ⟨h1, h2, h3, h4, h5, h6, h7, h8, h9, h10, h11, h12, h13, h14, h15,
    h16, h17, h18, h19, h20, h21, h22, h23, h24, h25, h26, h27, h28, h29,
    h30, h31, h32, h33, h34⟩ :=
    c3_arity_check 2 3 2 3 4 7 8 9 10 13 0 0 0 0 0 0 0 0 0 0 0 0 0
      [] [] [] [] [] [] [] [] [] [] [] [] [] [] 0 0 0 false false
      none none [] ⟨0, 0, 0, 0, 0, 0, 0, 0, 0, 0, 0, 0, 0, 0⟩ none
      ⟨0, 0, 0, 0, 0, 0, 0, 0, 0⟩ ⟨0, 0, 0, 0⟩ ⟨[], [], [], [], []⟩
      none none none none
      (by decide) (by decide) (by decide) (by decide) (by decide) (by decide)
      (by decide) (by decide) (by decide) (by decide)
  exact ⟨h1, h3, h24⟩

/- ------------------------------------------------------------------ -/
/- C7                                                                  -/
/- ------------------------------------------------------------------ -/

lemma posix_readdir_dirs (argc d : Nat) (dirs : List Nat) (e0 : Nat)
    (nrd : Option (List Char)) (nerr : Nat) :
    (posix_readdir argc d dirs e0 nrd nerr).dirs = dirs := by
  unfold posix_readdir
  split
  · rfl
  · split
    · rfl
    · cases nrd with
      | none => rfl
      | some z =>
        dsimp only
        split <;> rfl

/-- C7: the directory-handle set obeys the stated state machine: a
successful open appends the new handle; a successful close removes one
occurrence of the handle (so with the handle present once, a second
close of the same handle finds it absent and fails with EINVAL without
a native call); a read never changes the set; and reading or closing a
handle not in the set fails with EINVAL, performs no native call, and
leaves all state unchanged. -/
theorem c7_dir_handle_state_machine (dirs : List Nat) (d b hNew : Nat)
    (path : List Char) (e0 e1 nerr : Nat) (nrd : Option (List Char))
    (hcap : dirs.length < dir_limit)
    (hin : in_list d dirs = true) (hout : in_list b dirs = false)
    (hone : dirs.count d = 1) :
    (posix_opendir 2 path dirs e0 (some hNew) nerr).dirs = dirs ++ [hNew] ∧
    (posix_closedir 1 d dirs e0 nerr).dirs = swap_remove d dirs ∧
    (posix_closedir 1 d dirs e0 nerr).calls = [NCall.nclosedir d] ∧
    ((posix_closedir 1 d dirs e0 nerr).dirs).count d = dirs.count d - 1 ∧
    in_list d ((posix_closedir 1 d dirs e0 nerr).dirs) = false ∧
    (posix_closedir 1 d ((posix_closedir 1 d dirs e0 nerr).dirs) e1 nerr).status = EINVAL ∧
    (posix_closedir 1 d ((posix_closedir 1 d dirs e0 nerr).dirs) e1 nerr).calls = [] ∧
    (posix_readdir 2 d dirs e0 nrd nerr).dirs = dirs ∧
    posix_readdir 2 b dirs e0 nrd nerr = ⟨EINVAL, some [], dirs, [], e0⟩ ∧
    posix_closedir 1 b dirs e0 nerr = ⟨EINVAL, dirs, [], e0⟩ := by
  have hmem : d ∈ dirs := (in_list_iff_mem d dirs).mp hin
  have hnotle : ¬ (dirs.length ≥ dir_limit) := by omega
  have hclose : posix_closedir 1 d dirs e0 nerr =
      ⟨nerr, swap_remove d dirs, [NCall.nclosedir d], nerr⟩ := by
    simp [posix_closedir, hin]
  have hrm : in_list d (swap_remove d dirs) = false :=
    (in_list_eq_false_iff _ _).mpr (swap_remove_not_mem d dirs hmem hone)
  refine ⟨?_, ?_, ?_, ?_, ?_, ?_, ?_, ?_, ?_, ?_⟩
  · simp [posix_opendir, hnotle]
  · rw [hclose]
  · rw [hclose]
  · rw [hclose]
    exact swap_remove_count d dirs hmem
  · rw [hclose]
    exact hrm
  · rw [hclose]
    simp [posix_closedir, hrm]
  · rw [hclose]
    simp [posix_closedir, hrm]
  · exact posix_readdir_dirs 2 d dirs e0 nrd nerr
  · simp [posix_readdir, hout]
  · simp [posix_closedir, hout]

/-- C7 witness. -/
theorem c7_dir_handle_state_machine_witness :
    (posix_opendir 2 [] [7] 0 (some 9) 0).dirs = [7] ++ [9] ∧
    (posix_closedir 1 7 [7] 0 0).dirs = swap_remove 7 [7] ∧
    (posix_closedir 1 7 ((posix_closedir 1 7 [7] 0 0).dirs) 0 0).status = EINVAL ∧
    posix_closedir 1 5 [7] 0 0 = ⟨EINVAL, [7], [], 0⟩ := by
  have h := c7_dir_handle_state_machine [7] 7 5 9 [] 0 0 0 none
      (by decide) (by decide) (by decide) (by decide)
  exact ⟨h.1, h.2.1, h.2.2.2.2.2.1, h.2.2.2.2.2.2.2.2.2⟩

/- ------------------------------------------------------------------ -/
/- C8                                                                  -/
/- ------------------------------------------------------------------ -/

lemma posix_closedir_dirs_length (argc d : Nat) (dirs : List Nat) (e0 nerr : Nat) :
    (posix_closedir argc d dirs e0 nerr).dirs.length ≤ dirs.length := by
  unfold posix_closedir
  split
  · exact Nat.le_refl _
  · split
    · exact Nat.le_refl _
    · exact swap_remove_length_le d dirs

/-- C8: once the tracked handle count has reached the ceiling of 256, a
further open fails with EMFILE, performs no native opendir and leaves
all state unchanged; and starting from any set within the ceiling, no
directory operation ever makes the set exceed the ceiling. -/
theorem c8_dir_ceiling (dirs l2 : List Nat) (path path2 : List Char) (d a : Nat)
    (e0 nerr : Nat) (nret nret2 : Option Nat) (nrd : Option (List Char))
    (hfull : dirs.length ≥ dir_limit) (hbound : l2.length ≤ dir_limit) :
    posix_opendir 2 path dirs e0 nret nerr = ⟨EMFILE, none, dirs, [], e0⟩ ∧
    (posix_opendir a path2 l2 e0 nret2 nerr).dirs.length ≤ dir_limit ∧
    (posix_readdir a d l2 e0 nrd nerr).dirs.length ≤ dir_limit ∧
    (posix_closedir a d l2 e0 nerr).dirs.length ≤ dir_limit := by
  refine ⟨?_, ?_, ?_, ?_⟩
  · unfold posix_opendir
    rw [if_neg (by decide), if_pos hfull]
  · by_cases ha : a ≠ 2
    · simp [posix_opendir, ha, hbound]
    · by_cases hl : l2.length ≥ dir_limit
      · simp [posix_opendir, ha, hl, hbound]
      · cases nret2 with
        | none => simp [posix_opendir, ha, hl, hbound]
        | some z =>
          simp only [posix_opendir, ha, hl, if_neg, if_false]
          simp
          omega
  · rw [posix_readdir_dirs]
    exact hbound
  · exact Nat.le_trans (posix_closedir_dirs_length a d l2 e0 nerr) hbound

/-- C8 witness. -/
theorem c8_dir_ceiling_witness :
    posix_opendir 2 [] (List.replicate 256 0) 0 none 0 =
      ⟨EMFILE, none, List.replicate 256 0, [], 0⟩ ∧
    (posix_opendir 2 [] [] 0 none 0).dirs.length ≤ dir_limit := by
  have h := c8_dir_ceiling (List.replicate 256 0) [] [] [] 0 2 0 0 none none none
      (by rw [List.length_replicate]; decide) (by decide)
  exact ⟨h.1, h.2.1⟩

/- ------------------------------------------------------------------ -/
/- C10                                                                 -/
/- ------------------------------------------------------------------ -/

lemma get_flags_go_all_resolved (table : List param) :
    ∀ (toks : List (List Char)) (acc : Nat),
      (∀ t ∈ toks, (_get_param table t).isSome) →
      _get_flags_go table toks acc =
        some (toks.foldl (fun a t => a ||| (_get_param table t).getD 0) acc) := by
  intro toks
  induction toks with
  | nil => intro acc _; rfl
  | cons t ts ih =>
    intro acc h
    obtain ⟨v, hv⟩ := Option.isSome_iff_exists.mp (h t (by simp))
    simp only [_get_flags_go, hv, List.foldl_cons]
    rw [ih _ (fun u hu => h u (by simp [hu]))]
    simp [hv]

lemma foldl_lor_perm (g : List Char → Nat) {l1 l2 : List (List Char)}
    (h : List.Perm l1 l2) :
    ∀ acc : Nat, l1.foldl (fun a t => a ||| g t) acc =
      l2.foldl (fun a t => a ||| g t) acc := by
  induction h with
  | nil => intro acc; rfl
  | cons x _ ih =>
    intro acc
    simp only [List.foldl_cons]
    exact ih _
  | swap x y l =>
    intro acc
    simp only [List.foldl_cons]
    rw [Nat.lor_assoc, Nat.lor_assoc, Nat.lor_comm (g y) (g x)]
  | trans _ _ ih1 ih2 =>
    intro acc
    rw [ih1, ih2]

lemma get_flags_go_bad (table : List param) :
    ∀ (toks : List (List Char)) (t0 : List Char), t0 ∈ toks →
      _get_param table t0 = none →
      ∀ acc, _get_flags_go table toks acc = none := by
  intro toks
  induction toks with
  | nil => intro t0 h; simp at h
  | cons t ts ih =>
    intro t0 h hb acc
    rcases List.mem_cons.mp h with rfl | hmem
    · simp [_get_flags_go, hb]
    · cases hp : _get_param table t with
      | none => simp [_get_flags_go, hp]
      | some v =>
        simp only [_get_flags_go, hp]
        exact ih t0 hmem hb _

/-- C10: a multi-valued option string whose tokens all resolve in the
static table decodes to the bitwise OR of the resolved flag values, and
the result is independent of token order; if any token does not
resolve, the decode yields the EINVAL failure, the partial mask is
discarded, and posix_openlog returns EINVAL without invoking the native
openlog (only the earlier ident malloc has happened); when both flag
strings of posix_openlog resolve, the native openlog is invoked with
the OR-ed masks. -/
theorem c10_multi_valued_options (table : List param)
    (toks toks2 btoks : List (List Char)) (t0 t1 : List Char)
    (ident optbad optgood facgood : List Char) (nerr : Nat)
    (hres : ∀ t ∈ toks, (_get_param table t).isSome)
    (hperm : List.Perm toks toks2)
    (ht0 : t0 ∈ btoks) (hbad : _get_param table t0 = none)
    (ht1 : t1 ∈ strtok_toks optbad) (hbad1 : _get_param option_param t1 = none)
    (hresO : ∀ t ∈ strtok_toks optgood, (_get_param option_param t).isSome)
    (hresF : ∀ t ∈ strtok_toks facgood, (_get_param facility_param t).isSome) :
    _get_flags_go table toks 0 =
      some (toks.foldl (fun a t => a ||| (_get_param table t).getD 0) 0) ∧
    _get_flags_go table toks 0 = _get_flags_go table toks2 0 ∧
    _get_flags_go table btoks 0 = none ∧
    posix_openlog 3 ident optbad facgood 0 true 0 nerr =
      ⟨EINVAL, [NCall.nmalloc (ident.length + 1)], 0⟩ ∧
    posix_openlog 3 ident optgood facgood 0 true 0 nerr =
      ⟨nerr,
        [NCall.nmalloc (ident.length + 1),
         NCall.nopenlog ident
           ((strtok_toks optgood).foldl
             (fun a t => a ||| (_get_param option_param t).getD 0) 0)
           ((strtok_toks facgood).foldl
             (fun a t => a ||| (_get_param facility_param t).getD 0) 0)],
        nerr⟩ := by
  have hres2 : ∀ t ∈ toks2, (_get_param table t).isSome :=
    fun t ht => hres t (hperm.mem_iff.mpr ht)
  refine ⟨?_, ?_, ?_, ?_, ?_⟩
  · exact get_flags_go_all_resolved table toks 0 hres
  · rw [get_flags_go_all_resolved table toks 0 hres,
      get_flags_go_all_resolved table toks2 0 hres2]
    exact congrArg some
      (foldl_lor_perm (fun t => (_get_param table t).getD 0) hperm 0)
  · exact get_flags_go_bad table btoks t0 ht0 hbad 0
  · have hB : _get_flags option_param optbad = none :=
      get_flags_go_bad option_param (strtok_toks optbad) t1 ht1 hbad1 0
    simp [posix_openlog, hB]
  · have hO := get_flags_go_all_resolved option_param (strtok_toks optgood) 0 hresO
    have hF := get_flags_go_all_resolved facility_param (strtok_toks facgood) 0 hresF
    simp [posix_openlog, _get_flags, hO, hF]

/-- C10 witness. -/
theorem c10_multi_valued_options_witness :
    _get_flags_go option_param [("PID").toList, ("CONS").toList] 0 = some 3 ∧
    _get_flags_go option_param [("PID").toList, ("CONS").toList] 0 =
      _get_flags_go option_param [("CONS").toList, ("PID").toList] 0 ∧
    _get_flags_go option_param [("PID").toList, ("BOGUS").toList] 0 = none ∧
    posix_openlog 3 [('x')] (("PID|BOGUS").toList) (("USER").toList) 0 true 0 0 =
      ⟨EINVAL, [NCall.nmalloc 2], 0⟩ ∧
    posix_openlog 3 [('x')] (("PID|CONS").toList) (("USER").toList) 0 true 0 0 =
      ⟨0, [NCall.nmalloc 2, NCall.nopenlog [('x')] 3 8], 0⟩ := by
  have h := c10_multi_valued_options option_param
      [("PID").toList, ("CONS").toList] [("CONS").toList, ("PID").toList]
      [("PID").toList, ("BOGUS").toList] (("BOGUS").toList) (("BOGUS").toList)
      [('x')] (("PID|BOGUS").toList) (("PID|CONS").toList) (("USER").toList) 0
      (by decide) (by decide) (by decide) (by decide) (by decide) (by decide)
      (by decide) (by decide)
  exact ⟨h.1.trans (by decide), h.2.1, h.2.2.1, h.2.2.2.1.trans (by decide),
    h.2.2.2.2.trans (by decide)⟩

end GtmPosix
